import Mathlib

/-!
Shallow embedding of the FinAgent context-engineering core: the
`ContextPacker` and the `EvidenceBuilder` modules, translated from the
TypeScript source.

Modelling conventions:
- JavaScript numbers are exact rationals (`ℚ`); the integer-valued token
  counts produced by `Math.ceil` are `ℕ`.
- A possibly-absent (`undefined`) field is an `Option`; JavaScript
  truthiness is made explicit per type (`strTruthy`, `numTruthy`,
  `boolTruthy`, `jsOrQ`, `jsOrS`).
- The wall clock (`Date.now()`, `new Date().toISOString()`) and the
  `Date` string parser are an explicit environment `JsEnv`.
- String rendering helpers (`toFixed2`, `jsNumToString`) compute the
  decimal expansions that `Number.prototype.toFixed(2)` and template
  interpolation produce on the exact-cent and integer values the
  pipeline renders.
-/

/-- JS truthiness of a possibly-undefined string: `undefined` and `""` are falsy. -/
def strTruthy : Option String → Bool
  | none => false
  | some s => decide (s ≠ "")

/-- JS truthiness of a possibly-undefined number: `undefined` and `0` are falsy. -/
def numTruthy : Option ℚ → Bool
  | none => false
  | some q => decide (q ≠ 0)

/-- JS truthiness of a possibly-undefined boolean. -/
def boolTruthy (b : Option Bool) : Bool :=
  b.getD false

/-- JS `a || d` for a possibly-undefined string `a`. -/
def jsOrS (a : Option String) (d : String) : String :=
  match a with
  | some s => if s = "" then d else s
  | none => d

/-- JS `a || d` for a possibly-undefined number `a`. -/
def jsOrQ (a : Option ℚ) (d : ℚ) : ℚ :=
  match a with
  | some q => if q = 0 then d else q
  | none => d

/-- `Math.abs`. -/
def jsAbs (q : ℚ) : ℚ :=
  if q < 0 then -q else q

/-- Regex `\w`: ASCII letters, digits and underscore. -/
def isWordChar (c : Char) : Bool :=
  (97 ≤ c.toNat && c.toNat ≤ 122) || (65 ≤ c.toNat && c.toNat ≤ 90) ||
    (48 ≤ c.toNat && c.toNat ≤ 57) || c.toNat == 95

/-- Regex `\s` (the whitespace characters occurring in the pipeline's strings). -/
def isSpaceChar (c : Char) : Bool :=
  c.toNat == 32 || (9 ≤ c.toNat && c.toNat ≤ 13)

/-- `String.prototype.toLowerCase` on the ASCII strings the pipeline renders. -/
def lowerChar (c : Char) : Char :=
  if 65 ≤ c.toNat ∧ c.toNat ≤ 90 then Char.ofNat (c.toNat + 32) else c

/-- Worker for `jsSplitWS`: `skipping` is true while inside a separator run. -/
def splitWSGo (skipping : Bool) (cur : List Char) : List Char → List (List Char)
  | [] => [cur.reverse]
  | c :: cs =>
    if isSpaceChar c then
      if skipping then splitWSGo true [] cs
      else cur.reverse :: splitWSGo true [] cs
    else splitWSGo false (c :: cur) cs

/-- JS `text.split(/\s+/)`: fields between maximal whitespace runs, keeping the
empty fields that JS produces for leading/trailing whitespace and for `""`. -/
def jsSplitWS (s : String) : List (List Char) :=
  splitWSGo false [] s.data

/-- Worker for `tokenizeText`: maximal runs of word characters. -/
def wordRunsGo (cur : List Char) : List Char → List (List Char)
  | [] => if cur.isEmpty then [] else [cur.reverse]
  | c :: cs =>
    if isWordChar c then wordRunsGo (c :: cur) cs
    else if cur.isEmpty then wordRunsGo [] cs
    else cur.reverse :: wordRunsGo [] cs

/-- `ContextPacker.tokenize`: lower-case, replace `[^\w\s]` by a space, split on
whitespace, drop empty tokens — i.e. the maximal word-character runs. -/
def tokenizeText (s : String) : List (List Char) :=
  wordRunsGo [] (s.data.map lowerChar)

/-- Does `hay` start with `needle`? -/
def seqStartsWith : List Char → List Char → Bool
  | [], _ => true
  | _ :: _, [] => false
  | n :: ns, h :: hs => n == h && seqStartsWith ns hs

/-- JS `hay.includes(needle)` for token lists. -/
def containsSeq (needle : List Char) : List Char → Bool
  | [] => needle.isEmpty
  | c :: hs => seqStartsWith needle (c :: hs) || containsSeq needle hs

/-- JS `hay.includes(needle)` on strings. -/
def strContains (hay needle : String) : Bool :=
  containsSeq needle.data hay.data

/-- `Number.prototype.toFixed(2)`, computed exactly on the rational value:
`sign ++ whole ++ "." ++ two fraction digits`, ties rounded half away from
zero (the pipeline only ever renders exact multiples of 0.01, where no
rounding occurs). -/
def toFixed2 (q : ℚ) : String :=
  let n : ℤ := q.num
  let d : ℤ := (q.den : ℤ)
  let na : ℤ := if n < 0 then -n else n
  let c : ℕ := ((200 * na + d) / (2 * d)).toNat
  let whole := c / 100
  let frac := c % 100
  (if n < 0 then "-" else "") ++ toString whole ++ "." ++
    (if frac < 10 then "0" ++ toString frac else toString frac)

/-- Fraction digits of `r / d` (terminating within `fuel` digits). -/
def decDigitsGo : ℕ → ℕ → ℕ → String
  | 0, _, _ => ""
  | _ + 1, 0, _ => ""
  | fuel + 1, r, d => toString (r * 10 / d) ++ decDigitsGo fuel (r * 10 % d) d

/-- JS template interpolation `${q}` of a number: exact on the integers and
terminating decimals the pipeline interpolates. -/
def jsNumToString (q : ℚ) : String :=
  let na := q.num.natAbs
  let whole := na / q.den
  let r := na % q.den
  (if q.num < 0 then "-" else "") ++
    (if r = 0 then toString whole else toString whole ++ "." ++ decDigitsGo 20 r q.den)

/-- Worker for `jsUnique`. -/
def jsUniqueGo (seen : List String) : List String → List String
  | [] => []
  | x :: xs => if x ∈ seen then jsUniqueGo seen xs else x :: jsUniqueGo (x :: seen) xs

/-- JS `[...new Set(l)]`: first occurrences, in insertion order. -/
def jsUnique (l : List String) : List String :=
  jsUniqueGo [] l

/-- The `ContextSnippet.type` union of the source. -/
inductive SnippetType
  | transaction
  | account
  | holding
  | position
  | summary
  deriving DecidableEq

/-- `ContextSnippet.metadata`. -/
structure SnippetMeta where
  id : Option String := none
  amount : Option ℚ := none
  date : Option String := none
  category : Option String := none
  symbol : Option String := none
  deriving DecidableEq

/-- `ContextSnippet`. -/
structure ContextSnippet where
  type : SnippetType
  content : String
  relevanceScore : ℚ
  tokenCount : ℕ
  metadata : SnippetMeta
  deriving DecidableEq

/-- A raw record's `category` value: a string or an array of strings. -/
inductive JsCategory
  | str (s : String)
  | arr (l : List String)
  deriving DecidableEq

/-- An input record: an untyped key-value object, discriminated at runtime by
which fields are present. `entries` is the record's `Object.entries` view
(keys in insertion order, values stringified, null/undefined entries absent),
consumed only by the generic-snippet and evidence-field fallbacks. -/
structure FinRecord where
  id : Option String := none
  amount : Option ℚ := none
  date : Option String := none
  merchant_name : Option String := none
  description : Option String := none
  category : Option JsCategory := none
  balance_current : Option ℚ := none
  balance_available : Option ℚ := none
  name : Option String := none
  type : Option String := none
  subtype : Option String := none
  mask : Option String := none
  quantity : Option ℚ := none
  symbol : Option String := none
  security_name : Option String := none
  security_id : Option String := none
  institution_value : Option ℚ := none
  market_value : Option ℚ := none
  unrealized_pnl : Option ℚ := none
  investment_transaction_id : Option String := none
  account_id : Option String := none
  side : Option String := none
  status : Option String := none
  dry_run : Option Bool := none
  entries : List (String × String) := []
  deriving DecidableEq

/-- `ContextPackingOptions` (the `timeWindow` field is never read by the source). -/
structure ContextPackingOptions where
  query : String
  tokenBudget : ℚ
  maxItems : Option ℕ := none
  includeAggregates : Option Bool := none
  timeWindowStart : Option String := none
  timeWindowEnd : Option String := none
  deriving DecidableEq

/-- `ContextCard.metadata`. -/
structure CardMetadata where
  originalItemCount : ℕ
  includedItemCount : ℕ
  tokenBudget : ℚ
  packingStrategy : String
  timestamp : String
  deriving DecidableEq

/-- `ContextCard`. -/
structure ContextCard where
  query : String
  snippets : List ContextSnippet
  totalTokens : ℕ
  compressionRatio : ℚ
  metadata : CardMetadata
  deriving DecidableEq

/-- The ambient JS environment: the clock (`Date.now()` in milliseconds, the
current ISO timestamp string) and the `Date`-string parser
(`new Date(s).getTime()` in milliseconds). -/
structure JsEnv where
  nowMs : ℚ
  nowIso : String
  dateMs : String → ℚ

/-- `estimateTokenCount`: `Math.ceil(text.split(/\s+/).length * 1.3)`. -/
def estimateTokenCount (text : String) : ℕ :=
  ((jsSplitWS text).length * 13 + 9) / 10

/-- The record-shape test `item.amount !== undefined && item.date`, used
verbatim by `createSnippets`, `createAggregateSnippets` and
`extractEvidenceFromObject`. -/
def isTxLike (r : FinRecord) : Bool :=
  r.amount.isSome && strTruthy r.date

/-- `createTransactionSnippet`. -/
def createTransactionSnippet (item : FinRecord) : ContextSnippet :=
  let amount : ℚ := jsAbs (jsOrQ item.amount 0)
  let merchant := jsOrS item.merchant_name (jsOrS item.description "Unknown")
  let categoryVal : Option String :=
    match item.category with
    | some (JsCategory.arr l) => l.head?
    | some (JsCategory.str s) => if s = "" then some "Other" else some s
    | none => some "Other"
  let category := categoryVal.getD "undefined"
  let date := jsOrS item.date "Unknown date"
  let content := "$" ++ toFixed2 amount ++ " at " ++ merchant ++ " (" ++ category ++ ") on " ++ date
  { type := SnippetType.transaction
    content := content
    relevanceScore := 0
    tokenCount := estimateTokenCount content
    metadata := { id := item.id, amount := item.amount, date := item.date, category := categoryVal } }

/-- `createAccountSnippet`. -/
def createAccountSnippet (item : FinRecord) : ContextSnippet :=
  let name := jsOrS item.name "Unknown Account"
  let atype := jsOrS item.type "account"
  let balance := jsOrQ item.balance_current (jsOrQ item.balance_available 0)
  let maskStr :=
    match item.mask with
    | some m => if m = "" then "" else "(***" ++ m ++ ")"
    | none => ""
  let content := name ++ " " ++ maskStr ++ ": $" ++ toFixed2 balance ++ " " ++ atype ++ " account"
  { type := SnippetType.account
    content := content
    relevanceScore := 0
    tokenCount := estimateTokenCount content
    metadata := { id := item.id, amount := some balance } }

/-- `createHoldingSnippet`. -/
def createHoldingSnippet (item : FinRecord) : ContextSnippet :=
  let symbol := jsOrS item.symbol "Unknown"
  let name := jsOrS item.security_name (jsOrS item.name symbol)
  let quantity := jsOrQ item.quantity 0
  let value := jsOrQ item.institution_value (jsOrQ item.market_value 0)
  let base := symbol ++ ": " ++ jsNumToString quantity ++ " shares of " ++ name ++
    ", value $" ++ toFixed2 value
  let content :=
    match item.unrealized_pnl with
    | some p =>
      if p ≠ 0 then base ++ ", P&L " ++ (if 0 ≤ p then "+" else "") ++ "$" ++ toFixed2 p
      else base
    | none => base
  { type := if strTruthy item.symbol then SnippetType.holding else SnippetType.position
    content := content
    relevanceScore := 0
    tokenCount := estimateTokenCount content
    metadata := { id := item.id, amount := some value, symbol := some symbol } }

/-- `createGenericSnippet`. -/
def createGenericSnippet (item : FinRecord) : ContextSnippet :=
  let keyValues := String.intercalate ", " ((item.entries.take 3).map (fun kv => kv.1 ++ ": " ++ kv.2))
  let content := if keyValues = "" then "No data available" else keyValues
  { type := SnippetType.summary
    content := content
    relevanceScore := 0
    tokenCount := estimateTokenCount content
    metadata := { id := item.id } }

/-- The per-item body of `createSnippets`' loop: runtime shape dispatch. -/
def createSnippetFor (item : FinRecord) : ContextSnippet :=
  if isTxLike item then createTransactionSnippet item
  else if item.balance_current.isSome || item.balance_available.isSome then createAccountSnippet item
  else if item.quantity.isSome && strTruthy item.symbol then createHoldingSnippet item
  else createGenericSnippet item

/-- `createSnippets`. -/
def createSnippets (records : List FinRecord) : List ContextSnippet :=
  records.map createSnippetFor

/-- The bag-of-tokens part of `calculateRelevanceScores`: +1 per exact query
token hit, +0.5 per (query token, content token) substring pair. -/
def matchScoreFor (queryTokens contentTokens : List (List Char)) : ℚ :=
  queryTokens.foldl (fun acc qt =>
    let acc1 := if contentTokens.contains qt then acc + 1 else acc
    contentTokens.foldl (fun a ct =>
      if containsSeq qt ct || containsSeq ct qt then a + 1/2 else a) acc1) 0

/-- The +0.5 recency boost of `calculateRelevanceScores` (≤ 30 days old). -/
def recencyBonus (env : JsEnv) (s : ContextSnippet) : ℚ :=
  match s.metadata.date with
  | some d => if d ≠ "" ∧ (env.nowMs - env.dateMs d) / 86400000 ≤ 30 then 1/2 else 0
  | none => 0

/-- The +0.3 high-value boost of `calculateRelevanceScores` (|amount| > 1000). -/
def amountBonus (s : ContextSnippet) : ℚ :=
  match s.metadata.amount with
  | some a => if a ≠ 0 ∧ 1000 < jsAbs a then 3/10 else 0
  | none => 0

/-- The per-snippet score of `calculateRelevanceScores`. -/
def calculateSnippetScore (env : JsEnv) (queryTokens : List (List Char)) (s : ContextSnippet) : ℚ :=
  matchScoreFor queryTokens (tokenizeText s.content) + recencyBonus env s + amountBonus s

/-- `calculateRelevanceScores`. -/
def calculateRelevanceScores (env : JsEnv) (snippets : List ContextSnippet) (query : String) :
    List ContextSnippet :=
  let queryTokens := tokenizeText query
  snippets.map (fun s => { s with relevanceScore := calculateSnippetScore env queryTokens s })

/-- The truthiness-guarded `amount` proximity test of `calculateDiversityScore`. -/
def amountsSimilar (a b : Option ℚ) : Bool :=
  match a, b with
  | some x, some y => decide (x ≠ 0) && decide (y ≠ 0) && decide (jsAbs (x - y) < 50)
  | _, _ => false

/-- One iteration of `calculateDiversityScore`'s loop. -/
def diversityFold (candidate : ContextSnippet) (d : ℚ) (s : ContextSnippet) : ℚ :=
  let d1 := if s.type = candidate.type then d * (8/10) else d
  let d2 := if amountsSimilar s.metadata.amount candidate.metadata.amount then d1 * (7/10) else d1
  if s.metadata.category = candidate.metadata.category ∨ s.metadata.symbol = candidate.metadata.symbol
  then d2 * (6/10) else d2

/-- `calculateDiversityScore`. -/
def calculateDiversityScore (candidate : ContextSnippet) (selected : List ContextSnippet) : ℚ :=
  if selected.isEmpty then 1
  else max (1/10) (selected.foldl (diversityFold candidate) 1)

/-- Stable insertion into a relevance-descending list (ties keep the incoming
element, which originates earlier in the input, first). -/
def insertDesc (x : ContextSnippet) : List ContextSnippet → List ContextSnippet
  | [] => [x]
  | y :: ys => if x.relevanceScore < y.relevanceScore then y :: insertDesc x ys else x :: y :: ys

/-- `[...snippets].sort((a, b) => b.relevanceScore - a.relevanceScore)`:
`Array.prototype.sort` is stable, so this is the stable descending sort,
realised here as insertion sort (extensionally the unique stable sort). -/
def sortByRelevanceDesc : List ContextSnippet → List ContextSnippet
  | [] => []
  | x :: xs => insertDesc x (sortByRelevanceDesc xs)

/-- `options.maxItems || Math.min(50, sortedSnippets.length)` (note `0` is falsy). -/
def jsMaxItems (opts : ContextPackingOptions) (len : ℕ) : ℕ :=
  match opts.maxItems with
  | some m => if m = 0 then min 50 len else m
  | none => min 50 len

/-- `availableTokens = tokenBudget - reservedTokens`, with 30% reserved when
aggregates are requested. -/
def availableTokens (opts : ContextPackingOptions) : ℚ :=
  opts.tokenBudget - (if boolTruthy opts.includeAggregates then opts.tokenBudget * (3/10) else 0)

/-- The indexed selection loop of `packWithMMR`: hard break when the candidate
does not fit, accept when `relevance * diversity > 0.1`. -/
def mmrGo (avail : ℚ) : ℕ → List ContextSnippet → List ContextSnippet → ℕ → List ContextSnippet
  | 0, _, sel, _ => sel
  | _ + 1, [], sel, _ => sel
  | fuel + 1, c :: rest, sel, tot =>
    if avail < ((tot + c.tokenCount : ℕ) : ℚ) then sel
    else if 1/10 < c.relevanceScore * calculateDiversityScore c sel then
      mmrGo avail fuel rest (sel ++ [c]) (tot + c.tokenCount)
    else mmrGo avail fuel rest sel tot

/-- `packWithMMR`. -/
def packWithMMR (snippets : List ContextSnippet) (opts : ContextPackingOptions) :
    List ContextSnippet :=
  let sorted := sortByRelevanceDesc snippets
  mmrGo (availableTokens opts) (min (jsMaxItems opts sorted.length) sorted.length) sorted [] 0

/-- `snippets.reduce((sum, s) => sum + s.tokenCount, 0)`. -/
def sumTokens (snippets : List ContextSnippet) : ℕ :=
  snippets.foldl (fun s x => s + x.tokenCount) 0

/-- `getRemainingTokens`. -/
def getRemainingTokens (snippets : List ContextSnippet) (budget : ℚ) : ℚ :=
  max 0 (budget - (sumTokens snippets : ℚ))

/-- `createAggregateSnippets`: one summary snippet when any record is
transaction-like, with fixed relevance 10. -/
def createAggregateSnippets (records : List FinRecord) : List ContextSnippet :=
  let transactions := records.filter (fun r => isTxLike r)
  if transactions.isEmpty then []
  else
    let totalSpending := (transactions.filter (fun t => decide (0 < t.amount.getD 0))).foldl
      (fun s t => s + t.amount.getD 0) 0
    let totalIncome := (transactions.filter (fun t => decide (t.amount.getD 0 < 0))).foldl
      (fun s t => s + jsAbs (t.amount.getD 0)) 0
    let content := "Summary: $" ++ toFixed2 totalSpending ++ " spent, $" ++ toFixed2 totalIncome ++
      " income from " ++ toString transactions.length ++ " transactions"
    [{ type := SnippetType.summary
       content := content
       relevanceScore := 10
       tokenCount := estimateTokenCount content
       metadata := { amount := some totalSpending } }]

/-- The accumulation loop of `trimToTokenBudget`: stop at the first snippet
whose tokens would push the running sum past the budget. -/
def trimGo (budget : ℚ) : List ContextSnippet → ℕ → List ContextSnippet
  | [], _ => []
  | s :: rest, tot =>
    if ((tot + s.tokenCount : ℕ) : ℚ) ≤ budget then s :: trimGo budget rest (tot + s.tokenCount)
    else []

/-- `trimToTokenBudget`. -/
def trimToTokenBudget (snippets : List ContextSnippet) (budget : ℚ) : List ContextSnippet :=
  trimGo budget snippets 0

/-- The snippet list `pack` builds before the final trim: the MMR selection,
with the aggregate snippets prepended (`unshift`) when aggregates are
requested and more than 100 tokens of the budget remain unused. -/
def packPreTrim (records : List FinRecord) (opts : ContextPackingOptions) (env : JsEnv) :
    List ContextSnippet :=
  let snippets := createSnippets records
  let scored := calculateRelevanceScores env snippets opts.query
  let packed := packWithMMR scored opts
  if boolTruthy opts.includeAggregates = true ∧ 100 < getRemainingTokens packed opts.tokenBudget
  then createAggregateSnippets records ++ packed
  else packed

/-- `ContextPacker.pack`, the `packContext` entry point (its non-exceptional
path; the `catch` fallback is outside this total embedding). -/
def packContext (records : List FinRecord) (opts : ContextPackingOptions) (env : JsEnv) :
    ContextCard :=
  let empty : ContextCard :=
    { query := opts.query
      snippets := []
      totalTokens := 0
      compressionRatio := 0
      metadata :=
        { originalItemCount := records.length
          includedItemCount := 0
          tokenBudget := opts.tokenBudget
          packingStrategy := "mmr_temporal"
          timestamp := env.nowIso } }
  if records.isEmpty then empty
  else
    let finalSnippets := trimToTokenBudget (packPreTrim records opts env) opts.tokenBudget
    { empty with
      snippets := finalSnippets
      totalTokens := sumTokens finalSnippets
      compressionRatio := (finalSnippets.length : ℚ) / (records.length : ℚ)
      metadata := { empty.metadata with includedItemCount := finalSnippets.length } }

/-- `EvidenceItem` (the `metadata` sub-object is never populated by the source). -/
structure EvidenceItem where
  table : String
  id : String
  fields : List String
  deriving DecidableEq

/-- `AggregationSummary`. -/
structure AggregationSummary where
  table : String
  operation : String
  field : String
  value : ℚ
  count : ℕ
  groupBy : Option String := none
  deriving DecidableEq

/-- One entry of `DataLineageInfo.sources`. -/
structure LineageSource where
  name : String
  sourceType : String
  lastRefresh : String
  recordCount : ℕ
  deriving DecidableEq

/-- `DataLineageInfo`. -/
structure DataLineageInfo where
  sources : List LineageSource
  transformations : List String
  dependencies : List String
  deriving DecidableEq

/-- `AuditTrailEntry` (`parameters` is always the empty object in the source). -/
structure AuditTrailEntry where
  action : String
  timestamp : String
  userId : String
  tool : String
  recordsAffected : ℕ
  deriving DecidableEq

/-- `EvidencePackage.metadata`. -/
structure EvidenceMetadata where
  totalRecords : ℕ
  uniqueTables : List String
  confidenceScore : ℚ
  timestamp : String
  toolsUsed : List String
  deriving DecidableEq

/-- `EvidencePackage`. -/
structure EvidencePackage where
  query : String
  evidence : List EvidenceItem
  aggregations : List AggregationSummary
  dataLineage : DataLineageInfo
  auditTrail : List AuditTrailEntry
  metadata : EvidenceMetadata
  deriving DecidableEq

/-- `EvidenceBuildingOptions`. -/
structure EvidenceBuildingOptions where
  toolName : String
  userId : String
  timestamp : String
  includeAggregations : Option Bool := none
  includeLineage : Option Bool := none
  includeAuditTrail : Option Bool := none
  confidenceThreshold : Option ℚ := none
  deriving DecidableEq

/-- Dynamic field-presence lookup `data[field] !== undefined` for the canonical
field names that `extractEvidenceFromObject` probes. -/
def fieldDefined (r : FinRecord) : String → Bool
  | "id" => r.id.isSome
  | "date" => r.date.isSome
  | "amount" => r.amount.isSome
  | "merchant_name" => r.merchant_name.isSome
  | "category" => r.category.isSome
  | "account_id" => r.account_id.isSome
  | "name" => r.name.isSome
  | "type" => r.type.isSome
  | "subtype" => r.subtype.isSome
  | "balance_current" => r.balance_current.isSome
  | "symbol" => r.symbol.isSome
  | "quantity" => r.quantity.isSome
  | "institution_value" => r.institution_value.isSome
  | "market_value" => r.market_value.isSome
  | "side" => r.side.isSome
  | "status" => r.status.isSome
  | "dry_run" => r.dry_run.isSome
  | _ => false

/-- `extractEvidenceFromObject` (the non-object guard is unreachable for typed
records; shape dispatch and canonical field lists as in the source). -/
def extractEvidenceFromObject (data : FinRecord) : List EvidenceItem :=
  let itemId := jsOrS data.id "unknown"
  let tf : String × List String :=
    if isTxLike data then
      (if strTruthy data.investment_transaction_id then "investment_transactions" else "transactions",
       ["id", "date", "amount", "merchant_name", "category", "account_id"])
    else if data.balance_current.isSome || data.balance_available.isSome then
      ("accounts", ["id", "name", "type", "subtype", "balance_current"])
    else if data.quantity.isSome && strTruthy data.symbol then
      (if strTruthy data.security_id then "holdings" else "crypto_positions",
       if strTruthy data.security_id then ["id", "symbol", "quantity", "institution_value", "account_id"]
       else ["id", "symbol", "quantity", "market_value"])
    else if strTruthy data.side && numTruthy data.quantity then
      ("crypto_orders", ["id", "symbol", "side", "quantity", "status", "dry_run"])
    else ("unknown", [])
  let presentFields := tf.2.filter (fieldDefined data)
  [{ table := tf.1
     id := itemId
     fields := if presentFields.isEmpty then (data.entries.map Prod.fst).take 5 else presentFields }]

/-- `extractEvidenceFromArray`. -/
def extractEvidenceFromArray (data : List FinRecord) : List EvidenceItem :=
  data.flatMap extractEvidenceFromObject

/-- JS `Math.round(q * 100) / 100` (`Math.round` is floor of `q + 1/2`). -/
def roundCents (q : ℚ) : ℚ :=
  (⌊q * 100 + 1/2⌋ : ℚ) / 100

/-- The JS object key under which `buildAggregations` counts a record's
primary category (`undefined` coerces to the key `"undefined"`). -/
def categoryKey (r : FinRecord) : String :=
  match r.category with
  | some (JsCategory.arr l) => (l.head?).getD "undefined"
  | some (JsCategory.str s) => s
  | none => "undefined"

/-- JS truthiness of a possibly-undefined `category` value: an empty string is
falsy, while an array is always truthy (even when empty). -/
def catTruthy : Option JsCategory → Bool
  | none => false
  | some (JsCategory.str s) => decide (s ≠ "")
  | some (JsCategory.arr _) => true

/-- `buildAggregations`. -/
def buildAggregations (data : List FinRecord) : List AggregationSummary :=
  match data with
  | [] => []
  | firstItem :: _ =>
    let amountAggs : List AggregationSummary :=
      if firstItem.amount.isSome then
        let tableName :=
          if strTruthy firstItem.investment_transaction_id then "investment_transactions"
          else if strTruthy firstItem.side then "crypto_orders"
          else "transactions"
        let totalAmount := data.foldl (fun s i => s + jsAbs (jsOrQ i.amount 0)) 0
        let sumAgg : AggregationSummary :=
          { table := tableName, operation := "sum", field := "amount"
            value := roundCents totalAmount, count := data.length }
        let catAggs : List AggregationSummary :=
          if catTruthy firstItem.category then
            (jsUnique (data.map categoryKey)).map (fun c =>
              { table := tableName, operation := "count", field := "category"
                value := ((data.filter (fun i => categoryKey i = c)).length : ℚ)
                count := data.length, groupBy := some c })
          else []
        sumAgg :: catAggs
      else []
    let positionAggs : List AggregationSummary :=
      if firstItem.quantity.isSome && numTruthy firstItem.market_value then
        [{ table := "crypto_positions", operation := "sum", field := "market_value"
           value := roundCents (data.foldl (fun s i => s + jsOrQ i.market_value 0) 0)
           count := data.length }]
      else []
    let holdingAggs : List AggregationSummary :=
      if numTruthy firstItem.institution_value then
        [{ table := "holdings", operation := "sum", field := "institution_value"
           value := roundCents (data.foldl (fun s i => s + jsOrQ i.institution_value 0) 0)
           count := data.length }]
      else []
    amountAggs ++ positionAggs ++ holdingAggs

/-- `buildDataLineage`. -/
def buildDataLineage (data : List FinRecord) (options : EvidenceBuildingOptions) : DataLineageInfo :=
  let transformations :=
    (if strContains options.toolName "summary" then ["aggregation", "grouping"] else []) ++
    (if strContains options.toolName "crypto" then ["price_calculation", "pnl_calculation"] else []) ++
    (if strContains options.toolName "investment" || strContains options.toolName "holdings" then
      ["valuation", "performance_metrics"] else [])
  let dependencies :=
    ["go-ingestion-service"] ++
    (if strContains options.toolName "crypto" then ["robinhood-api"] else []) ++
    (if strContains options.toolName "investment" || strContains options.toolName "holdings" then
      ["plaid-api"] else [])
  { sources := [{ name := "finagent-database", sourceType := "database"
                  lastRefresh := options.timestamp, recordCount := data.length }]
    transformations := transformations
    dependencies := dependencies }

/-- `buildAuditTrail`. -/
def buildAuditTrail (options : EvidenceBuildingOptions) : List AuditTrailEntry :=
  [{ action := "execute_tool_" ++ options.toolName
     timestamp := options.timestamp
     userId := options.userId
     tool := options.toolName
     recordsAffected := 0 }]

/-- `calculateConfidenceScore` (its `threshold` argument is never read). -/
def calculateConfidenceScore (evidence : EvidencePackage) (env : JsEnv) : ℚ :=
  let s1 : ℚ := if 0 < evidence.evidence.length then 4/10 else 0
  let s2 : ℚ := s1 + (if 1 < evidence.metadata.uniqueTables.length then 2/10 else 0)
  let s3 : ℚ := s2 + (if 0 < evidence.aggregations.length then 2/10 else 0)
  let s4 : ℚ := s3 +
    (if env.nowMs - 60 * 60 * 1000 < env.dateMs evidence.metadata.timestamp then 2/10 else 0)
  min 1 s4

/-- `generateQueryDescription`. -/
def generateQueryDescription (toolName : String) (data : List FinRecord) : String :=
  let recordCount := data.length
  if toolName = "list_accounts" then "Retrieved " ++ toString recordCount ++ " financial accounts"
  else if toolName = "list_transactions" then
    "Retrieved " ++ toString recordCount ++ " financial transactions"
  else if toolName = "spending_summary" then
    "Generated spending analysis from " ++ toString recordCount ++ " transactions"
  else if toolName = "get_holdings" then
    "Retrieved " ++ toString recordCount ++ " investment holdings"
  else if toolName = "get_investment_transactions" then
    "Retrieved " ++ toString recordCount ++ " investment transactions"
  else if toolName = "get_crypto_positions" then
    "Retrieved " ++ toString recordCount ++ " cryptocurrency positions"
  else if toolName = "place_crypto_order" then "Placed cryptocurrency order"
  else "Executed " ++ toolName ++ " returning " ++ toString recordCount ++ " records"

/-- `EvidenceBuilder.build`, the `buildEvidence` entry point on a record array
(its non-exceptional path; the `catch` fallback is outside this total
embedding). -/
def buildEvidence (data : List FinRecord) (options : EvidenceBuildingOptions) (env : JsEnv) :
    EvidencePackage :=
  let evidence := extractEvidenceFromArray data
  let aggregations := if boolTruthy options.includeAggregations then buildAggregations data else []
  let auditTrail := if boolTruthy options.includeAuditTrail then buildAuditTrail options else []
  let uniqueTables := jsUnique (evidence.map EvidenceItem.table)
  let pkg : EvidencePackage :=
    { query := generateQueryDescription options.toolName data
      evidence := evidence
      aggregations := aggregations
      dataLineage := buildDataLineage data options
      auditTrail := auditTrail
      metadata :=
        { totalRecords := data.length
          uniqueTables := uniqueTables
          confidenceScore := 0
          timestamp := options.timestamp
          toolsUsed := [options.toolName] } }
  { pkg with metadata := { pkg.metadata with confidenceScore := calculateConfidenceScore pkg env } }

/-! ### Concrete inputs shared by witnesses and counterexamples -/

/-- The single transaction record of spec §8 (45.50 = 91/2). -/
def starbucksRecord : FinRecord :=
  { amount := some (mkRat 91 2)
    date := some "2024-01-01"
    merchant_name := some "Starbucks"
    category := some (JsCategory.arr ["Food and Drink", "Coffee"]) }

/-- A concrete clock: an evaluation instant far after 2024 (so no recency
boosts fire) whose `Date` parser sends every string to epoch 0. -/
def env0 : JsEnv :=
  { nowMs := 10000000000000, nowIso := "2026-10-11T00:00:00.000Z", dateMs := fun _ => 0 }

/-- A second, field-for-field identical clock (a distinct definition). -/
def env0b : JsEnv :=
  { nowMs := 10000000000000, nowIso := "2026-10-11T00:00:00.000Z", dateMs := fun _ => 0 }

/-- Concrete packing options: the spec's query and the maximal budget. -/
def opts8 : ContextPackingOptions :=
  { query := "starbucks", tokenBudget := 4000, includeAggregates := some true }

/-- The snippet the Normalizer produces for `starbucksRecord`. -/
def snip8 : ContextSnippet :=
  { type := SnippetType.transaction
    content := "$45.50 at Starbucks (Food and Drink) on 2024-01-01"
    relevanceScore := 0
    tokenCount := 11
    metadata := { amount := some (mkRat 91 2), date := some "2024-01-01",
                  category := some "Food and Drink" } }

/-- `snip8` as scored under `env0` and query "starbucks". -/
def snip8s : ContextSnippet :=
  { snip8 with relevanceScore := mkRat 3 2 }

/-- The aggregate summary snippet for `[starbucksRecord]`. -/
def agg8 : ContextSnippet :=
  { type := SnippetType.summary
    content := "Summary: $45.50 spent, $0.00 income from 1 transactions"
    relevanceScore := 10
    tokenCount := 11
    metadata := { amount := some (mkRat 91 2) } }

/-- A minimal transaction-like record whose snippet matches no query token. -/
def txRecord1 : FinRecord :=
  { amount := some 1, date := some "2020-01-01" }

/-- Packing options at the bottom of the documented budget range (100), with
aggregates requested. -/
def opts100 : ContextPackingOptions :=
  { query := "x", tokenBudget := 100, includeAggregates := some true }

/-- A record with no recognised fields at all (generic fallback). -/
def genericRecord : FinRecord := {}

/-- Evidence-building invocation metadata used by concrete runs. -/
def evOpts : EvidenceBuildingOptions :=
  { toolName := "list_accounts", userId := "user-1", timestamp := "2026-10-11T00:00:00.000Z" }

/-- A clock for which `evOpts.timestamp` is fresh (parses to the current instant). -/
def envFresh : JsEnv :=
  { nowMs := 0, nowIso := "", dateMs := fun _ => 0 }

/-! ### General lemmas about the embedded operations -/

theorem sumTokens_foldl (l : List ContextSnippet) (a : ℕ) :
    l.foldl (fun s x => s + x.tokenCount) a = a + sumTokens l := by
  induction l generalizing a with
  | nil => simp [sumTokens]
  | cons x xs ih =>
    simp only [sumTokens, List.foldl] at *
    rw [ih (a + x.tokenCount), ih (0 + x.tokenCount)]
    omega

theorem sumTokens_cons (x : ContextSnippet) (l : List ContextSnippet) :
    sumTokens (x :: l) = x.tokenCount + sumTokens l := by
  have h := sumTokens_foldl l (0 + x.tokenCount)
  simp only [sumTokens, List.foldl] at *
  omega

theorem trimGo_sum_le (b : ℚ) (l : List ContextSnippet) (tot : ℕ) (h : (tot : ℚ) ≤ b) :
    ((tot + sumTokens (trimGo b l tot) : ℕ) : ℚ) ≤ b := by
  induction l generalizing tot with
  | nil => simpa [trimGo, sumTokens]
  | cons s rest ih =>
    by_cases hc : ((tot + s.tokenCount : ℕ) : ℚ) ≤ b
    · have h2 := ih (tot + s.tokenCount) hc
      simp only [trimGo, if_pos hc, sumTokens_cons]
      push_cast at h2 ⊢
      linarith
    · simp only [trimGo]
      rw [if_neg hc]
      simpa [sumTokens] using h

theorem trimGo_length_le (b : ℚ) (l : List ContextSnippet) (tot : ℕ) :
    (trimGo b l tot).length ≤ l.length := by
  induction l generalizing tot with
  | nil => simp [trimGo]
  | cons s rest ih =>
    simp only [trimGo]
    by_cases hc : ((tot + s.tokenCount : ℕ) : ℚ) ≤ b
    · rw [if_pos hc]
      simpa using ih (tot + s.tokenCount)
    · rw [if_neg hc]
      simp

theorem mmrGo_length_le (avail : ℚ) (fuel : ℕ) (cands sel : List ContextSnippet) (tot : ℕ) :
    (mmrGo avail fuel cands sel tot).length ≤ sel.length + fuel := by
  induction fuel generalizing cands sel tot with
  | zero => simp [mmrGo]
  | succ n ih =>
    cases cands with
    | nil => simp [mmrGo]
    | cons c rest =>
      simp only [mmrGo]
      by_cases h1 : avail < ((tot + c.tokenCount : ℕ) : ℚ)
      · rw [if_pos h1]
        omega
      · rw [if_neg h1]
        by_cases h2 : 1/10 < c.relevanceScore * calculateDiversityScore c sel
        · rw [if_pos h2]
          have h3 := ih rest (sel ++ [c]) (tot + c.tokenCount)
          simp only [List.length_append, List.length_cons, List.length_nil] at h3
          omega
        · rw [if_neg h2]
          have h3 := ih rest sel tot
          omega

theorem mmrGo_prefix (avail : ℚ) (fuel : ℕ) (cands sel : List ContextSnippet) (tot : ℕ) :
    ∃ news, mmrGo avail fuel cands sel tot = sel ++ news := by
  induction fuel generalizing cands sel tot with
  | zero => exact ⟨[], by simp [mmrGo]⟩
  | succ n ih =>
    cases cands with
    | nil => exact ⟨[], by simp [mmrGo]⟩
    | cons c rest =>
      by_cases h1 : avail < ((tot + c.tokenCount : ℕ) : ℚ)
      · refine ⟨[], ?_⟩
        simp only [mmrGo]
        rw [if_pos h1]
        simp
      · by_cases h2 : 1/10 < c.relevanceScore * calculateDiversityScore c sel
        · obtain ⟨news, hnews⟩ := ih rest (sel ++ [c]) (tot + c.tokenCount)
          refine ⟨c :: news, ?_⟩
          simp only [mmrGo]
          rw [if_neg h1, if_pos h2, hnews]
          simp
        · obtain ⟨news, hnews⟩ := ih rest sel tot
          refine ⟨news, ?_⟩
          simp only [mmrGo]
          rw [if_neg h1, if_neg h2]
          exact hnews

theorem mmrGo_gate (avail : ℚ) (fuel : ℕ) (cands sel : List ContextSnippet) (tot : ℕ)
    (pre : List ContextSnippet) (x : ContextSnippet) (post : List ContextSnippet)
    (heq : mmrGo avail fuel cands sel tot = sel ++ pre ++ x :: post) :
    1/10 < x.relevanceScore * calculateDiversityScore x (sel ++ pre) := by
  induction fuel generalizing cands sel tot pre with
  | zero =>
    exfalso
    simp only [mmrGo] at heq
    have hlen := congrArg List.length heq
    simp only [List.length_append, List.length_cons] at hlen
    omega
  | succ n ih =>
    cases cands with
    | nil =>
      exfalso
      simp only [mmrGo] at heq
      have hlen := congrArg List.length heq
      simp only [List.length_append, List.length_cons] at hlen
      omega
    | cons c rest =>
      simp only [mmrGo] at heq
      by_cases h1 : avail < ((tot + c.tokenCount : ℕ) : ℚ)
      · exfalso
        rw [if_pos h1] at heq
        have hlen := congrArg List.length heq
        simp only [List.length_append, List.length_cons] at hlen
        omega
      · rw [if_neg h1] at heq
        by_cases h2 : 1/10 < c.relevanceScore * calculateDiversityScore c sel
        · rw [if_pos h2] at heq
          obtain ⟨news, hnews⟩ := mmrGo_prefix avail n rest (sel ++ [c]) (tot + c.tokenCount)
          cases pre with
          | nil =>
            rw [hnews] at heq
            have h' : sel ++ ([c] ++ news) = sel ++ (x :: post) := by
              simpa [List.append_assoc] using heq
            have h'' := List.append_cancel_left h'
            obtain ⟨hc, -⟩ := List.cons_eq_cons.mp h''
            subst hc
            simpa using h2
          | cons p pre' =>
            rw [hnews] at heq
            have h' : sel ++ ([c] ++ news) = sel ++ (p :: (pre' ++ x :: post)) := by
              simpa [List.append_assoc] using heq
            have h'' := List.append_cancel_left h'
            rw [List.singleton_append] at h''
            obtain ⟨hc, hn⟩ := List.cons_eq_cons.mp h''
            subst hc
            have hih := ih rest (sel ++ [c]) (tot + c.tokenCount) pre'
              (by rw [hnews, hn]; simp [List.append_assoc])
            simpa [List.append_assoc] using hih
        · rw [if_neg h2] at heq
          exact ih rest sel tot pre heq

theorem mmrGo_tok20 (avail : ℚ) (fuel : ℕ) (cands sel : List ContextSnippet) (tot : ℕ)
    (h20 : ∀ c ∈ cands, c.tokenCount = 20) :
    20 * ((mmrGo avail fuel cands sel tot).length : ℚ) ≤
      20 * sel.length + max (avail - tot) 0 := by
  induction fuel generalizing cands sel tot with
  | zero =>
    simp only [mmrGo]
    linarith [le_max_right (avail - (tot : ℚ)) (0 : ℚ)]
  | succ n ih =>
    cases cands with
    | nil =>
      simp only [mmrGo]
      linarith [le_max_right (avail - (tot : ℚ)) (0 : ℚ)]
    | cons c rest =>
      have hc20 : c.tokenCount = 20 := h20 c (List.mem_cons_self c rest)
      have hrest : ∀ x ∈ rest, x.tokenCount = 20 := fun x hx => h20 x (List.mem_cons_of_mem c hx)
      by_cases h1 : avail < ((tot + c.tokenCount : ℕ) : ℚ)
      · simp only [mmrGo]
        rw [if_pos h1]
        linarith [le_max_right (avail - (tot : ℚ)) (0 : ℚ)]
      · have hfit : ((tot : ℚ)) + 20 ≤ avail := by
          have h1b := not_lt.mp h1
          rw [hc20] at h1b
          push_cast at h1b
          linarith
        by_cases h2 : 1/10 < c.relevanceScore * calculateDiversityScore c sel
        · have h3 := ih rest (sel ++ [c]) (tot + c.tokenCount) hrest
          rw [hc20] at h3
          simp only [mmrGo]
          rw [if_neg h1, if_pos h2, hc20]
          have hm1 : max (avail - ((tot + 20 : ℕ) : ℚ)) 0 = avail - tot - 20 := by
            rw [max_eq_left] <;> push_cast <;> linarith
          have hm2 : max (avail - (tot : ℚ)) 0 = avail - tot := by
            rw [max_eq_left]
            linarith
          rw [hm1] at h3
          rw [hm2]
          simp only [List.length_append, List.length_cons, List.length_nil] at h3
          push_cast at h3 ⊢
          linarith
        · have h3 := ih rest sel tot hrest
          simp only [mmrGo]
          rw [if_neg h1, if_neg h2]
          exact h3

theorem insertDesc_perm (x : ContextSnippet) (l : List ContextSnippet) :
    (insertDesc x l).Perm (x :: l) := by
  induction l with
  | nil => simp [insertDesc]
  | cons y ys ih =>
    by_cases h : x.relevanceScore < y.relevanceScore
    · simp only [insertDesc, if_pos h]
      exact (ih.cons y).trans (List.Perm.swap x y ys)
    · simp [insertDesc, if_neg h]

theorem sortByRelevanceDesc_perm (l : List ContextSnippet) :
    (sortByRelevanceDesc l).Perm l := by
  induction l with
  | nil => simp [sortByRelevanceDesc]
  | cons x xs ih =>
    exact (insertDesc_perm x (sortByRelevanceDesc xs)).trans (ih.cons x)

theorem sortByRelevanceDesc_length (l : List ContextSnippet) :
    (sortByRelevanceDesc l).length = l.length :=
  (sortByRelevanceDesc_perm l).length_eq

theorem mem_insertDesc {x y : ContextSnippet} {l : List ContextSnippet}
    (h : y ∈ insertDesc x l) : y = x ∨ y ∈ l := by
  have := (insertDesc_perm x l).mem_iff.mp h
  simpa using this

theorem insertDesc_sorted (x : ContextSnippet) (l : List ContextSnippet)
    (h : List.Sorted (fun a b => b.relevanceScore ≤ a.relevanceScore) l) :
    List.Sorted (fun a b => b.relevanceScore ≤ a.relevanceScore) (insertDesc x l) := by
  induction l with
  | nil => simp [insertDesc]
  | cons y ys ih =>
    rw [List.sorted_cons] at h
    by_cases hlt : x.relevanceScore < y.relevanceScore
    · simp only [insertDesc, if_pos hlt]
      rw [List.sorted_cons]
      refine ⟨fun z hz => ?_, ih h.2⟩
      rcases mem_insertDesc hz with rfl | hzys
      · exact le_of_lt hlt
      · exact h.1 z hzys
    · simp only [insertDesc, if_neg hlt]
      rw [List.sorted_cons]
      refine ⟨fun z hz => ?_, List.sorted_cons.mpr h⟩
      rcases List.mem_cons.mp hz with rfl | hzys
      · exact not_lt.mp hlt
      · exact le_trans (h.1 z hzys) (not_lt.mp hlt)

theorem sortByRelevanceDesc_sorted (l : List ContextSnippet) :
    List.Sorted (fun a b => b.relevanceScore ≤ a.relevanceScore) (sortByRelevanceDesc l) := by
  induction l with
  | nil => simp [sortByRelevanceDesc]
  | cons x xs ih => exact insertDesc_sorted x (sortByRelevanceDesc xs) ih

theorem filter_insertDesc (x : ContextSnippet) (l : List ContextSnippet) (r : ℚ) :
    (insertDesc x l).filter (fun s => decide (s.relevanceScore = r)) =
      (x :: l).filter (fun s => decide (s.relevanceScore = r)) := by
  induction l with
  | nil => rfl
  | cons y ys ih =>
    by_cases hlt : x.relevanceScore < y.relevanceScore
    · simp only [insertDesc, if_pos hlt]
      by_cases hy : y.relevanceScore = r
      · have hx : ¬x.relevanceScore = r := fun hx => absurd hlt (by rw [hx, hy]; exact lt_irrefl r)
        simp [List.filter, hx, hy, ih]
      · by_cases hx : x.relevanceScore = r
        · simp [List.filter, hx, hy, ih]
        · simp [List.filter, hx, hy, ih]
    · simp [insertDesc, if_neg hlt]

theorem filter_sortByRelevanceDesc (l : List ContextSnippet) (r : ℚ) :
    (sortByRelevanceDesc l).filter (fun s => decide (s.relevanceScore = r)) =
      l.filter (fun s => decide (s.relevanceScore = r)) := by
  induction l with
  | nil => rfl
  | cons x xs ih =>
    rw [sortByRelevanceDesc, filter_insertDesc]
    by_cases hx : x.relevanceScore = r
    · simp [List.filter, hx, ih]
    · simp [List.filter, hx, ih]

/-- The per-selected-snippet multiplier the diversity loop applies, written as
a standalone factor (0.8 for same kind; 0.7 when both `amount` tags are
present, non-zero and within 50; 0.6 when the optional `category` values
coincide or the optional `symbol` values coincide). -/
def diversityFactor (candidate s : ContextSnippet) : ℚ :=
  (if s.type = candidate.type then 8/10 else 1) *
    (if amountsSimilar s.metadata.amount candidate.metadata.amount then 7/10 else 1) *
    (if s.metadata.category = candidate.metadata.category ∨
        s.metadata.symbol = candidate.metadata.symbol then 6/10 else 1)

theorem diversityFold_eq (candidate : ContextSnippet) (d : ℚ) (s : ContextSnippet) :
    diversityFold candidate d s = d * diversityFactor candidate s := by
  unfold diversityFold diversityFactor
  split_ifs <;> ring

theorem foldl_diversityFold (candidate : ContextSnippet) (sel : List ContextSnippet) (a : ℚ) :
    sel.foldl (diversityFold candidate) a = a * (sel.map (diversityFactor candidate)).prod := by
  induction sel generalizing a with
  | nil => simp
  | cons x xs ih =>
    simp only [List.foldl, List.map, List.prod_cons]
    rw [diversityFold_eq, ih]
    ring

theorem foldl_add_map (f : FinRecord → ℚ) (l : List FinRecord) (a : ℚ) :
    l.foldl (fun s t => s + f t) a = a + (l.map f).sum := by
  induction l generalizing a with
  | nil => simp
  | cons x xs ih =>
    simp only [List.foldl, List.map, List.sum_cons]
    rw [ih]
    ring

theorem filter_map_comm (f : FinRecord → ℚ) (p : ℚ → Bool) (l : List FinRecord) :
    (l.filter (fun t => p (f t))).map f = (l.map f).filter p := by
  induction l with
  | nil => rfl
  | cons x xs ih =>
    by_cases h : p (f x)
    · simp [List.filter, h, ih]
    · simp [List.filter, h, ih]

theorem createAggregateSnippets_length_le (records : List FinRecord) :
    (createAggregateSnippets records).length ≤ 1 := by
  unfold createAggregateSnippets
  by_cases h : (List.filter (fun r => isTxLike r) records).isEmpty = true
  · simp [h]
  · simp [h]

/-! ### Claim theorems -/

/-- C1: for every record list, query and options whose token budget lies in
the documented 100..4000 range, and every clock, the ContextCard returned by
`packContext` has `totalTokens ≤ tokenBudget` — the final trim pass
accumulates snippets in order and stops before the running sum would exceed
the budget, aggregate summary snippet included. -/
theorem c1_totalTokens_le_budget (records : List FinRecord) (opts : ContextPackingOptions)
    (env : JsEnv) (h100 : (100 : ℚ) ≤ opts.tokenBudget) (h4000 : opts.tokenBudget ≤ 4000) :
    ((packContext records opts env).totalTokens : ℚ) ≤ opts.tokenBudget := by
  unfold packContext
  by_cases he : records.isEmpty = true
  · rw [if_pos he]
    push_cast
    linarith
  · rw [if_neg he]
    have h0 : ((0 : ℕ) : ℚ) ≤ opts.tokenBudget := by push_cast; linarith
    have h := trimGo_sum_le opts.tokenBudget (packPreTrim records opts env) 0 h0
    simpa [trimToTokenBudget] using h

/-- C1 witness: the theorem applied at a concrete record list, options and clock. -/
theorem c1_totalTokens_le_budget_witness :
    ((100 : ℚ) ≤ opts8.tokenBudget ∧ opts8.tokenBudget ≤ 4000) ∧
      ((packContext [starbucksRecord] opts8 env0).totalTokens : ℚ) ≤ opts8.tokenBudget :=
  ⟨⟨by norm_num [opts8], by norm_num [opts8]⟩,
    c1_totalTokens_le_budget [starbucksRecord] opts8 env0 (by norm_num [opts8])
      (by norm_num [opts8])⟩

/-- C4 (amended): `buildEvidence` on an empty record list always has an empty
`distinctSourceTables` set, but its confidence score is 0.2 — not 0 — whenever
the invocation timestamp parses to within the last hour (the freshness bonus
applies regardless of the record count); it is 0 only otherwise. -/
theorem c4_empty_evidence_amended (options : EvidenceBuildingOptions) (env : JsEnv) :
    (buildEvidence [] options env).metadata.uniqueTables = [] ∧
      (buildEvidence [] options env).metadata.confidenceScore =
        (if env.nowMs - 60 * 60 * 1000 < env.dateMs options.timestamp then 1/5 else 0) := by
  constructor
  · simp [buildEvidence, extractEvidenceFromArray, jsUnique, jsUniqueGo]
  · by_cases hf : env.nowMs - 60 * 60 * 1000 < env.dateMs options.timestamp
    · simp only [buildEvidence, extractEvidenceFromArray, List.flatMap_nil, buildAggregations,
        calculateConfidenceScore, jsUnique, jsUniqueGo, List.map_nil, ite_self, if_pos hf]
      norm_num
    · simp only [buildEvidence, extractEvidenceFromArray, List.flatMap_nil, buildAggregations,
        calculateConfidenceScore, jsUnique, jsUniqueGo, List.map_nil, ite_self, if_neg hf]
      norm_num

/-- C4 counterexample: with a fresh invocation timestamp, `buildEvidence` on an
empty record list returns confidence 0.2, not the 0 the claim asserts for
every invocation metadata. -/
theorem c4_counterexample :
    (buildEvidence [] evOpts envFresh).metadata.confidenceScore = 1/5 ∧
      (buildEvidence [] evOpts envFresh).metadata.confidenceScore ≠ 0 := by
  have h : (buildEvidence [] evOpts envFresh).metadata.confidenceScore = 1/5 := by
    simp only [buildEvidence, extractEvidenceFromArray, List.flatMap_nil, buildAggregations,
      calculateConfidenceScore, jsUnique, jsUniqueGo, List.map_nil, ite_self, envFresh, evOpts]
    norm_num
  exact ⟨h, by rw [h]; norm_num⟩

/-- C9: `packContext` is deterministic given its inputs and the clock — two
calls with identical records, query and options under clocks that agree
pointwise return identical ContextCards — and the relevance ordering it uses
is the stable descending sort: a permutation, sorted by descending relevance,
with the snippets of any fixed relevance kept in input order. -/
theorem c9_pack_deterministic_and_stable :
    (∀ (records : List FinRecord) (opts : ContextPackingOptions) (e1 e2 : JsEnv),
        e1.nowMs = e2.nowMs → e1.nowIso = e2.nowIso → e1.dateMs = e2.dateMs →
        packContext records opts e1 = packContext records opts e2) ∧
      (∀ l : List ContextSnippet,
        (sortByRelevanceDesc l).Perm l ∧
          List.Sorted (fun a b => b.relevanceScore ≤ a.relevanceScore) (sortByRelevanceDesc l) ∧
          ∀ r : ℚ,
            (sortByRelevanceDesc l).filter (fun s => decide (s.relevanceScore = r)) =
              l.filter (fun s => decide (s.relevanceScore = r))) := by
  constructor
  · intro records opts e1 e2 h1 h2 h3
    cases e1
    cases e2
    simp only at h1 h2 h3
    subst h1
    subst h2
    subst h3
    rfl
  · intro l
    exact ⟨sortByRelevanceDesc_perm l, sortByRelevanceDesc_sorted l,
      fun r => filter_sortByRelevanceDesc l r⟩

/-- C9 witness: two field-for-field identical clocks yield identical cards at a
concrete input. -/
theorem c9_pack_deterministic_and_stable_witness :
    (env0.nowMs = env0b.nowMs ∧ env0.nowIso = env0b.nowIso ∧ env0.dateMs = env0b.dateMs) ∧
      packContext [starbucksRecord] opts8 env0 = packContext [starbucksRecord] opts8 env0b :=
  ⟨⟨rfl, rfl, rfl⟩,
    c9_pack_deterministic_and_stable.1 [starbucksRecord] opts8 env0 env0b rfl rfl rfl⟩

/-- C10: the Normalizer never emits a snippet of kind `position`: the
holding branch is only entered when the record's `symbol` is truthy, and the
same truthiness picks `holding` over `position`, so every snippet kind lies in
{transaction, account, holding, summary}. -/
theorem c10_position_unreachable (r : FinRecord) :
    (createSnippetFor r).type ≠ SnippetType.position ∧
      ((createSnippetFor r).type = SnippetType.transaction ∨
        (createSnippetFor r).type = SnippetType.account ∨
        (createSnippetFor r).type = SnippetType.holding ∨
        (createSnippetFor r).type = SnippetType.summary) := by
  unfold createSnippetFor
  by_cases h1 : isTxLike r = true
  · simp [h1, createTransactionSnippet]
  · by_cases h2 : (r.balance_current.isSome || r.balance_available.isSome) = true
    · simp [h1, h2, createAccountSnippet]
    · by_cases h3 : (r.quantity.isSome && strTruthy r.symbol) = true
      · have h3' : r.quantity.isSome = true ∧ strTruthy r.symbol = true := by simpa using h3
        simp [h1, h2, h3'.1, h3'.2, createHoldingSnippet]
      · simp [h1, h2, h3, createGenericSnippet]

/-- C2 counterexample: for the single Starbucks transaction record with
aggregates requested (budget 4000, default maxItems), the packed card contains
2 snippets — the prepended aggregate summary plus the selected transaction —
exceeding `min(maxItems, originalCount) = min 50 1 = 1`, so the claimed bound
fails as stated. -/
theorem c2_counterexample :
    (packContext [starbucksRecord] opts8 env0).metadata.includedItemCount = 2 ∧
      ¬(packContext [starbucksRecord] opts8 env0).metadata.includedItemCount ≤
        min (opts8.maxItems.getD 50) [starbucksRecord].length := by
  have hq : opts8.query = "starbucks" := rfl
  have hb : opts8.tokenBudget = 4000 := rfl
  have hi : opts8.includeAggregates = some true := rfl
  have hs : createSnippetFor starbucksRecord = snip8 := by decide
  have hscored : calculateRelevanceScores env0 (createSnippets [starbucksRecord]) "starbucks" =
      [snip8s] := by
    norm_num +decide [calculateRelevanceScores, calculateSnippetScore, matchScoreFor, List.foldl,
      recencyBonus, amountBonus, createSnippets, env0, Rat.mkRat_eq_div, jsAbs, hs, snip8, snip8s]
  have hmmr : packWithMMR [snip8s] opts8 = [snip8s] := by
    norm_num +decide [packWithMMR, mmrGo, sortByRelevanceDesc, insertDesc, calculateDiversityScore,
      availableTokens, jsMaxItems, boolTruthy, opts8, Rat.mkRat_eq_div, snip8s, snip8]
  have hagg : createAggregateSnippets [starbucksRecord] = [agg8] := by
    have e1 : ((91:ℚ)/2) = mkRat 91 2 := by norm_num [Rat.mkRat_eq_div]
    have h1 : toFixed2 ((91:ℚ)/2) = "45.50" := by rw [e1]; decide
    have h0 : toFixed2 (0:ℚ) = "0.00" := by decide
    norm_num +decide [createAggregateSnippets, List.foldl, List.filter, isTxLike, strTruthy,
      starbucksRecord, jsAbs, Rat.mkRat_eq_div, h1, h0, e1, agg8]
  have ht1 : snip8s.tokenCount = 11 := rfl
  have ht2 : agg8.tokenCount = 11 := rfl
  have hpre : packPreTrim [starbucksRecord] opts8 env0 = [agg8, snip8s] := by
    norm_num +decide [packPreTrim, hq, hb, hi, hscored, hmmr, hagg, getRemainingTokens, sumTokens,
      List.foldl, boolTruthy, max_def, ht1]
  have hcount : (packContext [starbucksRecord] opts8 env0).metadata.includedItemCount = 2 := by
    norm_num +decide [packContext, hb, hpre, trimToTokenBudget, trimGo, sumTokens, List.foldl,
      max_def, ht1, ht2]
  refine ⟨hcount, ?_⟩
  rw [hcount]
  decide

/-- C2 (amended): the packer's own selection respects
`min(maxItems, originalCount)`, but the prepended aggregate summary snippet
can add one more, so the card satisfies only
`includedCount ≤ min(maxItems, originalCount) + 1` (maxItems defaulting to 50
and assumed ≥ 1 when supplied, per the documented 1..100 range). -/
theorem c2_amended_includedCount (records : List FinRecord) (opts : ContextPackingOptions)
    (env : JsEnv) (hm : ∀ m ∈ opts.maxItems, 1 ≤ m) :
    (packContext records opts env).metadata.includedItemCount ≤
      min (opts.maxItems.getD 50) records.length + 1 := by
  unfold packContext
  by_cases he : records.isEmpty = true
  · rw [if_pos he]
    simp
  · rw [if_neg he]
    have h1 : (trimToTokenBudget (packPreTrim records opts env) opts.tokenBudget).length ≤
        (packPreTrim records opts env).length := trimGo_length_le _ _ 0
    have h2 : (packPreTrim records opts env).length ≤
        (packWithMMR (calculateRelevanceScores env (createSnippets records) opts.query)
          opts).length + 1 := by
      unfold packPreTrim
      by_cases hc : boolTruthy opts.includeAggregates = true ∧
          100 < getRemainingTokens
            (packWithMMR (calculateRelevanceScores env (createSnippets records) opts.query) opts)
            opts.tokenBudget
      · rw [if_pos hc, List.length_append]
        have := createAggregateSnippets_length_le records
        omega
      · rw [if_neg hc]
        omega
    have hlen : (sortByRelevanceDesc
        (calculateRelevanceScores env (createSnippets records) opts.query)).length =
        records.length := by
      rw [sortByRelevanceDesc_length]
      simp [calculateRelevanceScores, createSnippets]
    have heq : packWithMMR (calculateRelevanceScores env (createSnippets records) opts.query)
        opts =
        mmrGo (availableTokens opts) (min (jsMaxItems opts records.length) records.length)
          (sortByRelevanceDesc (calculateRelevanceScores env (createSnippets records) opts.query))
          [] 0 := by
      simp only [packWithMMR, hlen]
    have h4 := mmrGo_length_le (availableTokens opts)
      (min (jsMaxItems opts records.length) records.length)
      (sortByRelevanceDesc (calculateRelevanceScores env (createSnippets records) opts.query))
      [] 0
    rw [← heq] at h4
    have h5 : min (jsMaxItems opts records.length) records.length ≤
        min (opts.maxItems.getD 50) records.length := by
      cases hopt : opts.maxItems with
      | none =>
        simp only [jsMaxItems, hopt, Option.getD]
        omega
      | some m =>
        have hm1 : 1 ≤ m := hm m (by simp [hopt])
        simp only [jsMaxItems, hopt, Option.getD]
        rw [if_neg (by omega)]
    show (trimToTokenBudget (packPreTrim records opts env) opts.tokenBudget).length ≤
      min (opts.maxItems.getD 50) records.length + 1
    simp only [List.length_nil] at h4
    omega

/-- C2 amended witness: the amended bound applied at a concrete input. -/
theorem c2_amended_includedCount_witness :
    (∀ m ∈ opts8.maxItems, 1 ≤ m) ∧
      (packContext [starbucksRecord] opts8 env0).metadata.includedItemCount ≤
        min (opts8.maxItems.getD 50) [starbucksRecord].length + 1 :=
  ⟨by simp [opts8], c2_amended_includedCount [starbucksRecord] opts8 env0 (by simp [opts8])⟩

/-- C3 counterexample: with the minimal documented budget 100, aggregates
requested and a transaction-like record present, `pack` emits no summary
snippet at all — the remaining-budget gate `remaining > 100` can never pass at
budget 100 — refuting the claim that a summary snippet is always prepended
whenever aggregates are requested and a transaction-like record exists. -/
theorem c3_counterexample :
    boolTruthy opts100.includeAggregates = true ∧ isTxLike txRecord1 = true ∧
      packPreTrim [txRecord1] opts100 env0 = [] ∧
      (packContext [txRecord1] opts100 env0).snippets = [] := by
  have hq : opts100.query = "x" := rfl
  have hb : opts100.tokenBudget = 100 := rfl
  have hi : opts100.includeAggregates = some true := rfl
  have hs : createSnippetFor txRecord1 =
      { type := SnippetType.transaction
        content := "$1.00 at Unknown (Other) on 2020-01-01"
        relevanceScore := 0
        tokenCount := 8
        metadata := { amount := some 1, date := some "2020-01-01",
                      category := some "Other" } } := by decide
  have hscored : calculateRelevanceScores env0 (createSnippets [txRecord1]) "x" =
      [{ type := SnippetType.transaction
         content := "$1.00 at Unknown (Other) on 2020-01-01"
         relevanceScore := 0
         tokenCount := 8
         metadata := { amount := some 1, date := some "2020-01-01",
                       category := some "Other" } }] := by
    norm_num +decide [calculateRelevanceScores, calculateSnippetScore, matchScoreFor, List.foldl,
      recencyBonus, amountBonus, createSnippets, env0, Rat.mkRat_eq_div, jsAbs, hs]
  have hmmr : packWithMMR
      [({ type := SnippetType.transaction
          content := "$1.00 at Unknown (Other) on 2020-01-01"
          relevanceScore := 0
          tokenCount := 8
          metadata := { amount := some 1, date := some "2020-01-01",
                        category := some "Other" } } : ContextSnippet)] opts100 = [] := by
    norm_num +decide [packWithMMR, mmrGo, sortByRelevanceDesc, insertDesc, calculateDiversityScore,
      availableTokens, jsMaxItems, boolTruthy, opts100, Rat.mkRat_eq_div]
  have hpre : packPreTrim [txRecord1] opts100 env0 = [] := by
    norm_num +decide [packPreTrim, hq, hb, hi, hscored, hmmr, getRemainingTokens, sumTokens,
      List.foldl, boolTruthy, max_def]
  refine ⟨rfl, by decide, hpre, ?_⟩
  norm_num +decide [packContext, hpre, trimToTokenBudget, trimGo]

/-- C3 (amended): whenever aggregates are requested, at least one record is
transaction-like, AND more than 100 tokens of the budget remain after the
packer's selection, `pack` prepends (before the final trim) exactly one
summary snippet of relevance 10 whose text is
"Summary: $X spent, $Y income from n transactions" with X the sum of the
positive amounts, Y the sum of the absolute negative amounts and n the number
of transaction-like records. -/
theorem c3_amended_aggregate (records : List FinRecord) (opts : ContextPackingOptions)
    (env : JsEnv) (hagg : boolTruthy opts.includeAggregates = true)
    (htx : records.filter (fun r => isTxLike r) ≠ [])
    (hrem : 100 < getRemainingTokens
      (packWithMMR (calculateRelevanceScores env (createSnippets records) opts.query) opts)
      opts.tokenBudget) :
    packPreTrim records opts env =
      (let txs := records.filter (fun r => isTxLike r)
       let spent := ((txs.map (fun t => t.amount.getD 0)).filter (fun a => decide (0 < a))).sum
       let income :=
         (((txs.map (fun t => t.amount.getD 0)).filter (fun a => decide (a < 0))).map jsAbs).sum
       let content := "Summary: $" ++ toFixed2 spent ++ " spent, $" ++ toFixed2 income ++
         " income from " ++ toString txs.length ++ " transactions"
       ({ type := SnippetType.summary
          content := content
          relevanceScore := 10
          tokenCount := estimateTokenCount content
          metadata := { amount := some spent } } : ContextSnippet)) ::
        packWithMMR (calculateRelevanceScores env (createSnippets records) opts.query) opts := by
  have hne : ¬(records.filter (fun r => isTxLike r)).isEmpty = true := by
    simpa [List.isEmpty_iff] using htx
  have hspent : (List.filter (fun t => decide (0 < t.amount.getD 0))
        (records.filter (fun r => isTxLike r))).foldl (fun s t => s + t.amount.getD 0) 0 =
      (((records.filter (fun r => isTxLike r)).map (fun t => t.amount.getD 0)).filter
        (fun a => decide (0 < a))).sum := by
    rw [foldl_add_map]
    rw [← filter_map_comm (fun t => t.amount.getD 0) (fun a => decide (0 < a))]
    ring
  have hincome : (List.filter (fun t => decide (t.amount.getD 0 < 0))
        (records.filter (fun r => isTxLike r))).foldl (fun s t => s + jsAbs (t.amount.getD 0)) 0 =
      ((((records.filter (fun r => isTxLike r)).map (fun t => t.amount.getD 0)).filter
        (fun a => decide (a < 0))).map jsAbs).sum := by
    rw [foldl_add_map (fun t => jsAbs (t.amount.getD 0))]
    rw [← filter_map_comm (fun t => t.amount.getD 0) (fun a => decide (a < 0)), List.map_map]
    simp [Function.comp_def]
  simp only [packPreTrim, createAggregateSnippets]
  rw [if_pos ⟨hagg, hrem⟩, if_neg hne]
  simp only [List.cons_append, List.nil_append, hspent, hincome]

/-- C3 amended witness: at the Starbucks input (budget 4000) all three gate
conditions hold and the amended theorem yields the concrete prepended summary
snippet. -/
theorem c3_amended_aggregate_witness :
    (boolTruthy opts8.includeAggregates = true ∧
      [starbucksRecord].filter (fun r => isTxLike r) ≠ [] ∧
      100 < getRemainingTokens (packWithMMR (calculateRelevanceScores env0
        (createSnippets [starbucksRecord]) opts8.query) opts8) opts8.tokenBudget) ∧
      packPreTrim [starbucksRecord] opts8 env0 = agg8 :: packWithMMR (calculateRelevanceScores env0
        (createSnippets [starbucksRecord]) opts8.query) opts8 := by
  have hq : opts8.query = "starbucks" := rfl
  have hb : opts8.tokenBudget = 4000 := rfl
  have hs : createSnippetFor starbucksRecord = snip8 := by decide
  have hscored : calculateRelevanceScores env0 (createSnippets [starbucksRecord]) "starbucks" =
      [snip8s] := by
    norm_num +decide [calculateRelevanceScores, calculateSnippetScore, matchScoreFor, List.foldl,
      recencyBonus, amountBonus, createSnippets, env0, Rat.mkRat_eq_div, jsAbs, hs, snip8, snip8s]
  have hmmr : packWithMMR [snip8s] opts8 = [snip8s] := by
    norm_num +decide [packWithMMR, mmrGo, sortByRelevanceDesc, insertDesc, calculateDiversityScore,
      availableTokens, jsMaxItems, boolTruthy, opts8, Rat.mkRat_eq_div, snip8s, snip8]
  have ht1 : snip8s.tokenCount = 11 := rfl
  have hrem : 100 < getRemainingTokens (packWithMMR (calculateRelevanceScores env0
      (createSnippets [starbucksRecord]) opts8.query) opts8) opts8.tokenBudget := by
    rw [hq, hscored, hmmr, hb]
    norm_num [getRemainingTokens, sumTokens, List.foldl, ht1, max_def]
  have h := c3_amended_aggregate [starbucksRecord] opts8 env0 rfl (by decide) hrem
  refine ⟨⟨rfl, by decide, hrem⟩, ?_⟩
  rw [h]
  have e1 : ((91:ℚ)/2) = mkRat 91 2 := by norm_num [Rat.mkRat_eq_div]
  have h1 : toFixed2 ((91:ℚ)/2) = "45.50" := by rw [e1]; decide
  have h0 : toFixed2 (0:ℚ) = "0.00" := by decide
  norm_num +decide [agg8, isTxLike, strTruthy, starbucksRecord, jsAbs, Rat.mkRat_eq_div,
    List.filter, List.map, h1, h0, e1]

/-- A 20-token, highly relevant transaction snippet. -/
def s20 : ContextSnippet :=
  { type := SnippetType.transaction
    content := ""
    relevanceScore := 5
    tokenCount := 20
    metadata := {} }

/-- Packing options with tokenBudget 100 and no aggregate request. -/
def opts5w : ContextPackingOptions :=
  { query := "q", tokenBudget := 100 }

/-- C5: the packer's greedy loop performs a hard break — as soon as the next
candidate's tokens would overflow the available budget the loop returns the
current selection, regardless of what candidates follow — and consequently,
with tokenBudget 100 and every candidate costing 20 tokens (arbitrarily many,
arbitrarily relevant), at most 5 snippets are ever selected. -/
theorem c5_hard_break_bound :
    (∀ (avail : ℚ) (f1 f2 : ℕ) (c : ContextSnippet) (r1 r2 sel : List ContextSnippet) (tot : ℕ),
        avail < ((tot + c.tokenCount : ℕ) : ℚ) →
        mmrGo avail (f1 + 1) (c :: r1) sel tot = sel ∧
          mmrGo avail (f1 + 1) (c :: r1) sel tot = mmrGo avail (f2 + 1) (c :: r2) sel tot) ∧
      ∀ (snippets : List ContextSnippet) (opts : ContextPackingOptions),
        (∀ s ∈ snippets, s.tokenCount = 20) → opts.tokenBudget = 100 →
        (packWithMMR snippets opts).length ≤ 5 := by
  constructor
  · intro avail f1 f2 c r1 r2 sel tot h
    constructor
    · simp only [mmrGo]
      rw [if_pos h]
    · simp only [mmrGo]
      rw [if_pos h, if_pos h]
  · intro snippets opts h20 hb
    have h20s : ∀ c ∈ sortByRelevanceDesc snippets, c.tokenCount = 20 := fun c hc =>
      h20 c ((sortByRelevanceDesc_perm snippets).mem_iff.mp hc)
    have h := mmrGo_tok20 (availableTokens opts)
      (min (jsMaxItems opts (sortByRelevanceDesc snippets).length)
        (sortByRelevanceDesc snippets).length)
      (sortByRelevanceDesc snippets) [] 0 h20s
    have havail : availableTokens opts ≤ 100 := by
      unfold availableTokens
      rw [hb]
      split_ifs <;> norm_num
    have hmax : max (availableTokens opts - ((0 : ℕ) : ℚ)) 0 ≤ 100 := by
      apply max_le
      · push_cast
        linarith
      · norm_num
    simp only [List.length_nil, Nat.cast_zero, mul_zero, zero_add] at h
    have hlen : 20 * (((mmrGo (availableTokens opts)
        (min (jsMaxItems opts (sortByRelevanceDesc snippets).length)
          (sortByRelevanceDesc snippets).length)
        (sortByRelevanceDesc snippets) [] 0).length : ℕ) : ℚ) ≤ 100 := le_trans h hmax
    have heq : packWithMMR snippets opts =
        mmrGo (availableTokens opts)
          (min (jsMaxItems opts (sortByRelevanceDesc snippets).length)
            (sortByRelevanceDesc snippets).length)
          (sortByRelevanceDesc snippets) [] 0 := by
      simp only [packWithMMR]
    rw [heq]
    by_contra hgt
    have h6 : 6 ≤ (mmrGo (availableTokens opts)
        (min (jsMaxItems opts (sortByRelevanceDesc snippets).length)
          (sortByRelevanceDesc snippets).length)
        (sortByRelevanceDesc snippets) [] 0).length := by omega
    have h6q : (6 : ℚ) ≤ (((mmrGo (availableTokens opts)
        (min (jsMaxItems opts (sortByRelevanceDesc snippets).length)
          (sortByRelevanceDesc snippets).length)
        (sortByRelevanceDesc snippets) [] 0).length : ℕ) : ℚ) := by
      exact_mod_cast h6
    linarith

/-- C5 witness: the hard break at a concrete overflowing candidate (suffix
irrelevant), and the ≤ 5 bound on six concrete 20-token snippets under
budget 100. -/
theorem c5_hard_break_bound_witness :
    ((10 : ℚ) < ((0 + s20.tokenCount : ℕ) : ℚ) ∧
        mmrGo 10 (0 + 1) (s20 :: [s20]) [] 0 = [] ∧
        mmrGo 10 (0 + 1) (s20 :: [s20]) [] 0 = mmrGo 10 (3 + 1) (s20 :: []) [] 0) ∧
      (∀ s ∈ List.replicate 6 s20, s.tokenCount = 20) ∧ opts5w.tokenBudget = 100 ∧
        (packWithMMR (List.replicate 6 s20) opts5w).length ≤ 5 := by
  have hov : (10 : ℚ) < ((0 + s20.tokenCount : ℕ) : ℚ) := by norm_num [s20]
  have h20 : ∀ s ∈ List.replicate 6 s20, s.tokenCount = 20 := by
    intro s hs
    rw [List.eq_of_mem_replicate hs]
    rfl
  exact ⟨⟨hov, (c5_hard_break_bound.1 10 0 3 s20 [s20] [] [] 0 hov).1,
      (c5_hard_break_bound.1 10 0 3 s20 [s20] [] [] 0 hov).2⟩,
    h20, rfl, c5_hard_break_bound.2 (List.replicate 6 s20) opts5w h20 rfl⟩

/-- A transaction-like record whose amount is 0 (present but JS-falsy). -/
def zeroTxRecord : FinRecord :=
  { amount := some 0, date := some "2020-01-01" }

/-- Modelled from the claim's words (C6): start at 1.0; per already-selected
snippet, multiply by 0.8 on same kind, by 0.7 when both snippets carry an
amount tag within 50 units of each other, and by 0.6 when their category or
symbol tags match — the 0.7 and 0.6 penalties applying only when the named
tags are present on both snippets — then floor at 0.1. -/
def diversitySpecC6 (candidate : ContextSnippet) (selected : List ContextSnippet) : ℚ :=
  max (1/10) ((selected.map (fun s =>
    (if s.type = candidate.type then (8/10 : ℚ) else 1) *
      ((match s.metadata.amount, candidate.metadata.amount with
        | some a, some b => if jsAbs (a - b) < 50 then (7/10 : ℚ) else 1
        | _, _ => 1) : ℚ) *
      (if (s.metadata.category ≠ none ∧ s.metadata.category = candidate.metadata.category) ∨
          (s.metadata.symbol ≠ none ∧ s.metadata.symbol = candidate.metadata.symbol)
        then (6/10 : ℚ) else 1))).prod)

/-- C6 counterexample: the claim's multiplier differs from the code's. For two
generic snippets with no category/symbol tags at all, the code still applies
the 0.6 penalty (JS `undefined === undefined`) giving 0.8·0.6 = 0.48, while
the claim's formula gives 0.8; for two zero-amount transaction snippets the
code skips the 0.7 penalty (0 is falsy) giving 0.48, while the claim's
formula gives 0.8·0.7·0.6 = 0.336. -/
theorem c6_counterexample :
    calculateDiversityScore (createSnippetFor genericRecord) [createSnippetFor genericRecord] =
        12/25 ∧
      diversitySpecC6 (createSnippetFor genericRecord) [createSnippetFor genericRecord] = 4/5 ∧
      (12/25 : ℚ) ≠ 4/5 ∧
      calculateDiversityScore (createSnippetFor zeroTxRecord) [createSnippetFor zeroTxRecord] =
        12/25 ∧
      diversitySpecC6 (createSnippetFor zeroTxRecord) [createSnippetFor zeroTxRecord] = 42/125 := by
  have hg : createSnippetFor genericRecord =
      { type := SnippetType.summary
        content := "No data available"
        relevanceScore := 0
        tokenCount := 4
        metadata := {} } := by decide
  have hz : createSnippetFor zeroTxRecord =
      { type := SnippetType.transaction
        content := "$0.00 at Unknown (Other) on 2020-01-01"
        relevanceScore := 0
        tokenCount := 8
        metadata := { amount := some 0, date := some "2020-01-01",
                      category := some "Other" } } := by decide
  norm_num +decide [calculateDiversityScore, diversitySpecC6, diversityFold, amountsSimilar,
    jsAbs, hg, hz, List.foldl, max_def]

/-- C6 (amended): the code's diversity multiplier is the product, over the
already-selected snippets, of: 0.8 on same kind; 0.7 when both `amount` tags
are present AND non-zero (JS truthiness) and within 50 units; 0.6 when the
optional `category` values coincide or the optional `symbol` values coincide
(including when the tag is absent on both sides) — floored at 0.1; and a
candidate enters the selection only if its relevance times its multiplier
against the selection it joined exceeds 0.1. -/
theorem c6_amended_diversity :
    (∀ (c : ContextSnippet) (sel : List ContextSnippet),
        calculateDiversityScore c sel = max (1/10) ((sel.map (diversityFactor c)).prod)) ∧
      ∀ (snippets : List ContextSnippet) (opts : ContextPackingOptions)
        (pre : List ContextSnippet) (x : ContextSnippet) (post : List ContextSnippet),
        packWithMMR snippets opts = pre ++ x :: post →
        1/10 < x.relevanceScore * calculateDiversityScore x pre := by
  constructor
  · intro c sel
    unfold calculateDiversityScore
    by_cases hsel : sel.isEmpty = true
    · have h := List.isEmpty_iff.mp hsel
      subst h
      rw [if_pos hsel]
      simp only [List.map_nil, List.prod_nil]
      rw [max_eq_right (by norm_num : (1/10 : ℚ) ≤ 1)]
    · rw [if_neg hsel, foldl_diversityFold, one_mul]
  · intro snippets opts pre x post heq
    have h := mmrGo_gate (availableTokens opts)
      (min (jsMaxItems opts (sortByRelevanceDesc snippets).length)
        (sortByRelevanceDesc snippets).length)
      (sortByRelevanceDesc snippets) [] 0 pre x post (by simpa [packWithMMR] using heq)
    simpa using h

/-- C6 amended witness: a concrete selection `[s20]` decomposes as
`[] ++ s20 :: []`, and the theorem yields the acceptance gate of `s20`
against the empty selection it joined. -/
theorem c6_amended_diversity_witness :
    packWithMMR [s20] opts5w = [] ++ s20 :: [] ∧
      1/10 < s20.relevanceScore * calculateDiversityScore s20 [] := by
  have hrun : packWithMMR [s20] opts5w = [s20] := by
    norm_num +decide [packWithMMR, mmrGo, sortByRelevanceDesc, insertDesc,
      calculateDiversityScore, availableTokens, jsMaxItems, boolTruthy, opts5w, s20, max_def]
  have heq : packWithMMR [s20] opts5w = [] ++ s20 :: [] := by
    rw [hrun]
    rfl
  exact ⟨heq, c6_amended_diversity.2 [s20] opts5w [] s20 [] heq⟩

/-- C8: the Normalizer renders the spec's Starbucks record exactly as
"$45.50 at Starbucks (Food and Drink) on 2024-01-01", and at any one
evaluation instant the Scorer gives that snippet a strictly greater relevance
under query "starbucks" than under query "unrelated" (exactly 1 more: 1.5
match points versus the 0.5 that "unrelated" collects from its "at"
substring). -/
theorem c8_starbucks_snippet (env : JsEnv) :
    (createSnippetFor starbucksRecord).content =
        "$45.50 at Starbucks (Food and Drink) on 2024-01-01" ∧
      calculateSnippetScore env (tokenizeText "starbucks") (createSnippetFor starbucksRecord) =
        calculateSnippetScore env (tokenizeText "unrelated") (createSnippetFor starbucksRecord)
          + 1 ∧
      calculateSnippetScore env (tokenizeText "unrelated") (createSnippetFor starbucksRecord) <
        calculateSnippetScore env (tokenizeText "starbucks") (createSnippetFor starbucksRecord) := by
  have h1 : matchScoreFor (tokenizeText "starbucks")
      (tokenizeText (createSnippetFor starbucksRecord).content) = 3/2 := by
    norm_num +decide [matchScoreFor, List.foldl]
  have h2 : matchScoreFor (tokenizeText "unrelated")
      (tokenizeText (createSnippetFor starbucksRecord).content) = 1/2 := by
    norm_num +decide [matchScoreFor, List.foldl]
  refine ⟨by decide, ?_, ?_⟩
  · unfold calculateSnippetScore
    rw [h1, h2]
    ring
  · unfold calculateSnippetScore
    rw [h1, h2]
    linarith
